import Mathlib

/-!
Verification of the CI polling script `scripts/wait-for-ci.py`.

The script reads four environment inputs, then polls the GitHub check-runs
API up to `max_retries` times, classifying each required check name as
missing, pending (with its status or conclusion attached), or satisfied,
and exits accordingly.  We embed the script as pure Lean functions: the
environment is a record of optional strings, each attempt of the HTTP layer
is a `Response` (either a transport failure or a parsed list of check-run
records), and a whole run produces a `RunResult` recording the outcome,
the number of HTTP requests issued, the number of sleeps performed, and
the lines written to stdout and stderr.
-/

/-- A check-run record as returned by the API: at least name, status and
conclusion (the conclusion field is null while the run is not completed,
modelled as `Option`). -/
structure CheckRun where
  name : String
  status : String
  conclusion : Option String
deriving Repr, DecidableEq

/-- The hardcoded required check names of the script. -/
def REQUIRED_CHECKS : List String :=
  ["Lint & Type Check", "Server Tests", "Client Tests", "Build Check"]

/-- One attempt at the HTTP layer: either the request could not be completed
or returned a non-success status (so that raise_for_status raises), or it
succeeded and parsed to a list of check-run records (the check_runs key,
defaulting to the empty list when absent). -/
inductive Response where
  | failure
  | ok (check_runs : List CheckRun)
deriving Repr, DecidableEq

/-- The dict comprehension checks = the map from run name to run record,
built by inserting the records in order, so that a later record with the
same name overwrites an earlier one. -/
def checksOf (check_runs : List CheckRun) : String → Option CheckRun :=
  check_runs.foldl (fun m run => fun n => if n = run.name then some run else m n)
    (fun _ => none)

/-- How Python prints an optional conclusion inside an f-string: a null
conclusion prints as None. -/
def conclStr : Option String → String
  | some s => s
  | none => "None"

/-- The body of the classification loop, given the looked-up record
(the local variable check = checks.get name): append the name to missing
when absent, append an annotated entry to pending when not completed or
not successful, leave both lists unchanged when satisfied. -/
def classifyRecord (name : String) (check : Option CheckRun)
    (acc : List String × List String) : List String × List String :=
  match check with
  | none => (acc.1, acc.2 ++ [name])
  | some check =>
    if check.status ≠ "completed" then
      (acc.1 ++ [name ++ " (" ++ check.status ++ ")"], acc.2)
    else if check.conclusion ≠ some "success" then
      (acc.1 ++ [name ++ " (" ++ conclStr check.conclusion ++ ")"], acc.2)
    else acc

/-- The body of the classification loop for one required name. -/
def classifyOne (checks : String → Option CheckRun) (name : String)
    (acc : List String × List String) : List String × List String :=
  classifyRecord name (checks name) acc

/-- One iteration of classification: fold the loop body over the required
names, starting from empty pending and missing lists.  Returns the pair
(pending, missing). -/
def classify (check_runs : List CheckRun) (required : List String) :
    List String × List String :=
  required.foldl (fun acc name => classifyOne (checksOf check_runs) name acc) ([], [])

/-- The per-name classification outcome, as a derived view of the loop
body: used to state and prove properties of `classify`. -/
inductive Classification where
  | missing
  | pending (note : String)
  | satisfied
deriving Repr, DecidableEq

/-- Classification of a single looked-up record. -/
def classifyNameR (check : Option CheckRun) : Classification :=
  match check with
  | none => .missing
  | some check =>
    if check.status ≠ "completed" then .pending check.status
    else if check.conclusion ≠ some "success" then .pending (conclStr check.conclusion)
    else .satisfied

/-- Classification of a single required name against the checks map. -/
def classifyName (checks : String → Option CheckRun) (name : String) :
    Classification :=
  classifyNameR (checks name)

/-- The pending entry a required name with a given looked-up record
contributes, if any. -/
def pendingEntryR (name : String) (check : Option CheckRun) : Option String :=
  match classifyNameR check with
  | .pending note => some (name ++ " (" ++ note ++ ")")
  | _ => none

/-- The pending entry a required name contributes, if any. -/
def pendingEntry (checks : String → Option CheckRun) (name : String) :
    Option String :=
  pendingEntryR name (checks name)

/-- Whether a looked-up record is absent. -/
def isMissingR (check : Option CheckRun) : Bool :=
  match check with
  | none => true
  | some _ => false

/-- Whether a required name is missing from the checks map. -/
def isMissing (checks : String → Option CheckRun) (name : String) : Bool :=
  isMissingR (checks name)

/-- The environment-style configuration: each value is absent or a string. -/
structure Env where
  GITHUB_TOKEN : Option String
  GITHUB_REPOSITORY_OWNER : Option String
  GITHUB_REPOSITORY_NAME : Option String
  GITHUB_REPOSITORY : Option String
  GITHUB_SHA : Option String
deriving Repr, DecidableEq

/-- Python truthiness of an optional string: None and the empty string are
falsy. -/
def truthyOpt : Option String → Bool
  | none => false
  | some s => s ≠ ""

/-- Python truthiness of a string. -/
def truthyStr (s : String) : Bool := s ≠ ""

/-- Python `a or b` for an optional string a and a string b. -/
def pyOr (a : Option String) (b : String) : String :=
  match a with
  | some s => if s ≠ "" then s else b
  | none => b

/-- Splitting a character list on a separator character, as Python splits a
string on an explicit one-character separator: the empty input gives one
empty field, and every separator occurrence starts a new field. -/
def splitOnChar (c : Char) : List Char → List (List Char)
  | [] => [[]]
  | x :: xs =>
    match splitOnChar c xs with
    | [] => if x = c then [[], []] else [[x]]
    | y :: ys => if x = c then [] :: y :: ys else (x :: y) :: ys

/-- Python s.split sep [-1]: the last field of splitting on the slash. -/
def lastSlashField (s : String) : String :=
  String.mk ((splitOnChar '/' s.toList).getLastD [])

/-- The derived repository name: the explicit name, or the last field of the
combined owner-slash-repo identifier (defaulting to the empty string). -/
def repoOf (env : Env) : String :=
  pyOr env.GITHUB_REPOSITORY_NAME (lastSlashField (env.GITHUB_REPOSITORY.getD ""))

/-- The validation the script performs before any network call:
all of token, owner, repo, sha must be truthy. -/
def validConfig (env : Env) : Bool :=
  truthyOpt env.GITHUB_TOKEN && truthyOpt env.GITHUB_REPOSITORY_OWNER &&
    truthyStr (repoOf env) && truthyOpt env.GITHUB_SHA

/-- How a run of the script ends: normal return, sys.exit 1 on missing
configuration, an uncaught requests exception on transport failure, or
sys.exit 1 on timeout. -/
inductive Outcome where
  | success
  | configError
  | transportError
  | timeout
deriving Repr, DecidableEq

/-- The process exit status each outcome produces: 0 for a normal return,
1 for sys.exit 1, and 1 for the interpreter terminating on an uncaught
exception. -/
def exitCode : Outcome → Nat
  | .success => 0
  | _ => 1

/-- The observable result of a run: outcome, number of HTTP requests made,
number of sleeps performed, stdout lines, stderr lines. -/
structure RunResult where
  outcome : Outcome
  requests : Nat
  sleeps : Nat
  stdout : List String
  stderr : List String
deriving Repr, DecidableEq

/-- The diagnostic printed on missing configuration. -/
def missingEnvMsg : String :=
  "Missing required env vars: GITHUB_TOKEN, GITHUB_REPOSITORY_OWNER, GITHUB_REPOSITORY, GITHUB_SHA"

/-- The first line printed on timeout. -/
def timeoutMsg : String := "❌ Timeout waiting for checks"

/-- The line printed on success. -/
def successMsg : String := "✅ All required checks passed!"

/-- The first line the interpreter writes to stderr for an uncaught
exception. -/
def tracebackHead : String := "Traceback (most recent call last):"

/-- The progress lines printed on a non-terminal iteration, before the
sleep: the missing names, the pending entries, and the retry notice. -/
def progressLines (missing pending : List String) (attempt max_retries : Nat) :
    List String :=
  (if missing ≠ [] then
    ["  Waiting for: " ++ String.intercalate ", " missing ++ " (not started)"]
   else []) ++
  (if pending ≠ [] then
    ["  In progress: " ++ String.intercalate ", " pending]
   else []) ++
  ["  Retry " ++ toString (attempt + 1) ++ "/" ++ toString max_retries ++ " in 10s..."]

/-- The two lines printed on timeout: the notice and the combined
pending-then-missing list. -/
def timeoutLines (pending missing : List String) : List String :=
  [timeoutMsg,
   "  Still missing or failed: " ++ String.intercalate ", " (pending ++ missing)]

/-- The polling loop, iterating over the list of attempt indices
(range max_retries).  Each iteration issues one request; a transport
failure propagates as an uncaught exception (traceback on stderr); full
success returns; otherwise either print progress and sleep when attempts
remain, or print the timeout diagnostic and exit 1. -/
def pollAttempts (responses : Nat → Response) (required : List String)
    (max_retries : Nat) : List Nat → RunResult
  | [] => ⟨.success, 0, 0, [], []⟩
  | attempt :: rest =>
    match responses attempt with
    | .failure => ⟨.transportError, 1, 0, [], [tracebackHead]⟩
    | .ok runs =>
      let pm := classify runs required
      if pm.1 = [] ∧ pm.2 = [] then
        ⟨.success, 1, 0, [successMsg], []⟩
      else if attempt < max_retries - 1 then
        let r := pollAttempts responses required max_retries rest
        ⟨r.outcome, r.requests + 1, r.sleeps + 1,
          progressLines pm.2 pm.1 attempt max_retries ++ r.stdout, r.stderr⟩
      else
        ⟨.timeout, 1, 0, timeoutLines pm.1 pm.2, []⟩

/-- The two header lines printed after validation, before the loop. -/
def headerLines (env : Env) (required : List String) : List String :=
  ["Checking required checks for " ++ env.GITHUB_REPOSITORY_OWNER.getD "" ++ "/" ++
     repoOf env ++ "@" ++ (env.GITHUB_SHA.getD "").take 7,
   "Required: " ++ String.intercalate ", " required]

/-- The whole script: read and validate the configuration (exiting 1 with a
diagnostic before any request when invalid), print the header, then run the
polling loop over attempt indices 0 .. max_retries - 1. -/
def mainRun (env : Env) (responses : Nat → Response) (required : List String)
    (max_retries : Nat) : RunResult :=
  if validConfig env then
    let r := pollAttempts responses required max_retries (List.range max_retries)
    ⟨r.outcome, r.requests, r.sleeps, headerLines env required ++ r.stdout, r.stderr⟩
  else
    ⟨.configError, 0, 0, [missingEnvMsg], []⟩

/-- Whether a required name is satisfied. -/
def isSatisfiedName (checks : String → Option CheckRun) (n : String) : Bool :=
  match classifyName checks n with
  | .satisfied => true
  | _ => false

/-- Whether a required name contributes a pending entry. -/
def isPendingName (checks : String → Option CheckRun) (n : String) : Bool :=
  match classifyName checks n with
  | .pending _ => true
  | _ => false

/-- The satisfied subset of the required names, as the loop leaves it: the
names appended to neither pending nor missing. -/
def satisfiedNames (check_runs : List CheckRun) (required : List String) : List String :=
  required.filter (fun n => isSatisfiedName (checksOf check_runs) n)

/-- The required names that contribute a pending entry. -/
def pendingNames (check_runs : List CheckRun) (required : List String) : List String :=
  required.filter (fun n => isPendingName (checksOf check_runs) n)

/-- An attempt index at which the response parses but leaves some required
check unsatisfied, so the loop does not stop there with success. -/
def nonterminalAt (responses : Nat → Response) (required : List String) (i : Nat) : Prop :=
  ∃ runs, responses i = Response.ok runs ∧
    ¬((classify runs required).1 = [] ∧ (classify runs required).2 = [])

lemma classifyRecord_eq (n : String) (o : Option CheckRun)
    (acc : List String × List String) :
    classifyRecord n o acc =
      (acc.1 ++ (pendingEntryR n o).toList,
       acc.2 ++ (if isMissingR o then [n] else [])) := by
  cases o with
  | none => simp [classifyRecord, pendingEntryR, classifyNameR, isMissingR]
  | some check =>
    by_cases h1 : check.status = "completed"
    · by_cases h2 : check.conclusion = some "success"
      · simp [classifyRecord, pendingEntryR, classifyNameR, isMissingR, h1, h2]
      · simp [classifyRecord, pendingEntryR, classifyNameR, isMissingR, h1, h2]
    · simp [classifyRecord, pendingEntryR, classifyNameR, isMissingR, h1]

lemma classifyOne_eq (checks : String → Option CheckRun) (n : String)
    (acc : List String × List String) :
    classifyOne checks n acc =
      (acc.1 ++ (pendingEntry checks n).toList,
       acc.2 ++ (if isMissing checks n then [n] else [])) :=
  classifyRecord_eq n (checks n) acc

lemma classify_foldl (checks : String → Option CheckRun) :
    ∀ (l : List String) (acc : List String × List String),
      l.foldl (fun acc name => classifyOne checks name acc) acc =
        (acc.1 ++ l.filterMap (pendingEntry checks),
         acc.2 ++ l.filter (fun n => isMissing checks n))
  | [], acc => by simp
  | n :: l, acc => by
    rw [List.foldl_cons, classify_foldl checks l, classifyOne_eq]
    cases hp : pendingEntry checks n <;> cases hm : isMissing checks n <;>
      simp [List.filterMap_cons, List.filter_cons, hp, hm]

/-- `classify` computes exactly the pending entries and the missing names
of the required list, in order. -/
lemma classify_eq (runs : List CheckRun) (required : List String) :
    classify runs required =
      (required.filterMap (pendingEntry (checksOf runs)),
       required.filter (fun n => isMissing (checksOf runs) n)) := by
  rw [classify, classify_foldl]
  simp

lemma isMissingR_iff (o : Option CheckRun) :
    isMissingR o = true ↔ classifyNameR o = Classification.missing := by
  cases o with
  | none => simp [isMissingR, classifyNameR]
  | some check =>
    simp only [isMissingR, classifyNameR]
    constructor
    · intro h
      exact absurd h (by simp)
    · intro h
      split_ifs at h

lemma isMissing_iff (checks : String → Option CheckRun) (n : String) :
    isMissing checks n = true ↔ classifyName checks n = Classification.missing :=
  isMissingR_iff (checks n)

lemma pendingEntryR_of_pending (n note : String) (o : Option CheckRun)
    (h : classifyNameR o = Classification.pending note) :
    pendingEntryR n o = some (n ++ " (" ++ note ++ ")") := by
  simp [pendingEntryR, h]

lemma pendingEntryR_of_missing (n : String) (o : Option CheckRun)
    (h : classifyNameR o = Classification.missing) :
    pendingEntryR n o = none := by
  simp [pendingEntryR, h]

lemma pendingEntryR_of_satisfied (n : String) (o : Option CheckRun)
    (h : classifyNameR o = Classification.satisfied) :
    pendingEntryR n o = none := by
  simp [pendingEntryR, h]

lemma pendingEntry_of_pending (checks : String → Option CheckRun) (n note : String)
    (h : classifyName checks n = Classification.pending note) :
    pendingEntry checks n = some (n ++ " (" ++ note ++ ")") :=
  pendingEntryR_of_pending n note (checks n) h

lemma pendingEntry_of_missing (checks : String → Option CheckRun) (n : String)
    (h : classifyName checks n = Classification.missing) :
    pendingEntry checks n = none :=
  pendingEntryR_of_missing n (checks n) h

lemma pendingEntry_of_satisfied (checks : String → Option CheckRun) (n : String)
    (h : classifyName checks n = Classification.satisfied) :
    pendingEntry checks n = none :=
  pendingEntryR_of_satisfied n (checks n) h

lemma mem_missing_iff (runs : List CheckRun) (required : List String) (n : String)
    (hmem : n ∈ required) :
    n ∈ (classify runs required).2 ↔
      classifyName (checksOf runs) n = Classification.missing := by
  rw [classify_eq]
  simp [List.mem_filter, hmem, isMissing_iff]

lemma pending_mem (runs : List CheckRun) (required : List String) (n note : String)
    (hmem : n ∈ required) (h : classifyName (checksOf runs) n = Classification.pending note) :
    (n ++ " (" ++ note ++ ")") ∈ (classify runs required).1 := by
  rw [classify_eq]
  exact List.mem_filterMap.mpr ⟨n, hmem, pendingEntry_of_pending _ _ _ h⟩

lemma foldl_insert_preserve (name : String) :
    ∀ (l : List CheckRun) (m : String → Option CheckRun),
      (∀ r ∈ l, r.name ≠ name) →
      (l.foldl (fun m run => fun n => if n = run.name then some run else m n) m) name = m name
  | [], _, _ => rfl
  | r :: l, m, h => by
    have hr : ¬ name = r.name := fun e => h r (List.mem_cons_self r l) e.symm
    rw [List.foldl_cons,
      foldl_insert_preserve name l _ (fun x hx => h x (List.mem_cons_of_mem _ hx))]
    simp [hr]

/-- The checks dict maps a name to the last record carrying that name. -/
lemma checksOf_last (l1 l2 : List CheckRun) (r : CheckRun)
    (h2 : ∀ x ∈ l2, x.name ≠ r.name) :
    checksOf (l1 ++ r :: l2) r.name = some r := by
  rw [checksOf, List.foldl_append, List.foldl_cons,
    foldl_insert_preserve r.name l2 _ h2]
  simp

lemma pollAttempts_nil (responses : Nat → Response) (required : List String)
    (max_retries : Nat) :
    pollAttempts responses required max_retries [] =
      ⟨Outcome.success, 0, 0, [], []⟩ := rfl

lemma pollAttempts_cons_failure (responses : Nat → Response) (required : List String)
    (max_retries attempt : Nat) (rest : List Nat)
    (h : responses attempt = Response.failure) :
    pollAttempts responses required max_retries (attempt :: rest) =
      ⟨Outcome.transportError, 1, 0, [], [tracebackHead]⟩ := by
  simp [pollAttempts, h]

lemma pollAttempts_cons_ok_success (responses : Nat → Response) (required : List String)
    (max_retries attempt : Nat) (rest : List Nat) (runs : List CheckRun)
    (h : responses attempt = Response.ok runs)
    (hc : classify runs required = ([], [])) :
    pollAttempts responses required max_retries (attempt :: rest) =
      ⟨Outcome.success, 1, 0, [successMsg], []⟩ := by
  simp [pollAttempts, h, hc]

lemma pollAttempts_cons_ok_retry (responses : Nat → Response) (required : List String)
    (max_retries attempt : Nat) (rest : List Nat) (runs : List CheckRun)
    (h : responses attempt = Response.ok runs)
    (hc : ¬((classify runs required).1 = [] ∧ (classify runs required).2 = []))
    (hlt : attempt < max_retries - 1) :
    pollAttempts responses required max_retries (attempt :: rest) =
      ⟨(pollAttempts responses required max_retries rest).outcome,
       (pollAttempts responses required max_retries rest).requests + 1,
       (pollAttempts responses required max_retries rest).sleeps + 1,
       progressLines (classify runs required).2 (classify runs required).1
           attempt max_retries ++
         (pollAttempts responses required max_retries rest).stdout,
       (pollAttempts responses required max_retries rest).stderr⟩ := by
  simp [pollAttempts, h, hc, hlt]

lemma pollAttempts_cons_ok_timeout (responses : Nat → Response) (required : List String)
    (max_retries attempt : Nat) (rest : List Nat) (runs : List CheckRun)
    (h : responses attempt = Response.ok runs)
    (hc : ¬((classify runs required).1 = [] ∧ (classify runs required).2 = []))
    (hge : ¬ attempt < max_retries - 1) :
    pollAttempts responses required max_retries (attempt :: rest) =
      ⟨Outcome.timeout, 1, 0,
       timeoutLines (classify runs required).1 (classify runs required).2, []⟩ := by
  simp [pollAttempts, h, hc, hge]

/-- Running the loop over a block of consecutive nonterminal attempts, none
of them the last allowed one, accumulates one request and one sleep per
attempt plus some progress output, and then continues with the remaining
attempt indices. -/
lemma poll_skip (responses : Nat → Response) (required : List String)
    (max_retries : Nat) :
    ∀ (k a : Nat) (rest : List Nat),
      (∀ j, a ≤ j → j < a + k → nonterminalAt responses required j) →
      a + k < max_retries →
      ∃ pre : List String,
        pollAttempts responses required max_retries (List.range' a k ++ rest) =
          ⟨(pollAttempts responses required max_retries rest).outcome,
           (pollAttempts responses required max_retries rest).requests + k,
           (pollAttempts responses required max_retries rest).sleeps + k,
           pre ++ (pollAttempts responses required max_retries rest).stdout,
           (pollAttempts responses required max_retries rest).stderr⟩
  | 0, a, rest, _, _ => ⟨[], by simp [List.range']⟩
  | k + 1, a, rest, hnt, hlt => by
    obtain ⟨runs, hok, hne⟩ := hnt a (Nat.le_refl a) (by omega)
    have hlt1 : a < max_retries - 1 := by omega
    obtain ⟨pre, hpre⟩ := poll_skip responses required max_retries k (a + 1) rest
      (fun j h1 h2 => hnt j (by omega) (by omega)) (by omega)
    refine ⟨progressLines (classify runs required).2 (classify runs required).1
      a max_retries ++ pre, ?_⟩
    rw [List.range'_succ, List.cons_append,
      pollAttempts_cons_ok_retry responses required max_retries a _ runs hok hne hlt1,
      hpre]
    simp [Nat.add_assoc, Nat.add_comm 1 k]

lemma exitCode_eq_zero_iff (o : Outcome) : exitCode o = 0 ↔ o = Outcome.success := by
  cases o <;> simp [exitCode]

lemma mainRun_invalid (env : Env) (responses : Nat → Response) (required : List String)
    (max_retries : Nat) (h : validConfig env = false) :
    mainRun env responses required max_retries =
      ⟨Outcome.configError, 0, 0, [missingEnvMsg], []⟩ := by
  simp [mainRun, h]

lemma mainRun_valid (env : Env) (responses : Nat → Response) (required : List String)
    (max_retries : Nat) (h : validConfig env = true) :
    mainRun env responses required max_retries =
      ⟨(pollAttempts responses required max_retries (List.range max_retries)).outcome,
       (pollAttempts responses required max_retries (List.range max_retries)).requests,
       (pollAttempts responses required max_retries (List.range max_retries)).sleeps,
       headerLines env required ++
         (pollAttempts responses required max_retries (List.range max_retries)).stdout,
       (pollAttempts responses required max_retries (List.range max_retries)).stderr⟩ := by
  simp [mainRun, h]

/-- A run in which every attempt up to the last sees a parsed response with
some required check unsatisfied ends in timeout after exactly max_retries
requests and max_retries - 1 sleeps, with the timeout diagnostic computed
from the last response at the end of stdout. -/
lemma mainRun_timeout (env : Env) (responses : Nat → Response) (required : List String)
    (max_retries : Nat) (lastRuns : List CheckRun)
    (henv : validConfig env = true) (hpos : 1 ≤ max_retries)
    (hnt : ∀ j, j < max_retries → nonterminalAt responses required j)
    (hlast : responses (max_retries - 1) = Response.ok lastRuns) :
    ∃ pre : List String,
      mainRun env responses required max_retries =
        ⟨Outcome.timeout, max_retries, max_retries - 1,
         headerLines env required ++ pre ++
           timeoutLines (classify lastRuns required).1 (classify lastRuns required).2,
         []⟩ := by
  obtain ⟨m, rfl⟩ : ∃ m, max_retries = m + 1 := ⟨max_retries - 1, by omega⟩
  simp only [Nat.add_sub_cancel] at hlast ⊢
  obtain ⟨runs0, hok0, hne0⟩ := hnt m (by omega)
  rw [hlast] at hok0
  injection hok0 with heq
  subst heq
  have hsplit : List.range (m + 1) = List.range' 0 m ++ [m] := by
    rw [List.range_eq_range', List.range'_1_concat]
    simp
  obtain ⟨pre, hpre⟩ := poll_skip responses required (m + 1) m 0 [m]
    (fun j h1 h2 => hnt j (by omega)) (by omega)
  refine ⟨pre, ?_⟩
  rw [mainRun_valid _ _ _ _ henv, hsplit, hpre,
    pollAttempts_cons_ok_timeout responses required (m + 1) m [] lastRuns hlast hne0
      (by omega)]
  simp [Nat.add_comm]

/-- A run in which the first i attempts are nonterminal and attempt i fails
at the transport level ends immediately as an uncaught transport error
after exactly i + 1 requests and i sleeps, with the traceback on stderr. -/
lemma mainRun_transport (env : Env) (responses : Nat → Response) (required : List String)
    (max_retries i : Nat)
    (henv : validConfig env = true) (hi : i < max_retries)
    (hbefore : ∀ j, j < i → nonterminalAt responses required j)
    (hfail : responses i = Response.failure) :
    ∃ pre : List String,
      mainRun env responses required max_retries =
        ⟨Outcome.transportError, i + 1, i, headerLines env required ++ pre,
         [tracebackHead]⟩ := by
  obtain ⟨d, rfl⟩ : ∃ d, max_retries = i + d + 1 := ⟨max_retries - i - 1, by omega⟩
  have hsplit : List.range (i + d + 1) =
      List.range' 0 i ++ (i :: List.range' (i + 1) d) := by
    rw [List.range_eq_range',
      show i + d + 1 = d + 1 + i from by omega,
      ← List.range'_append_1 0 i (d + 1), List.range'_succ]
    simp
  obtain ⟨pre, hpre⟩ := poll_skip responses required (i + d + 1) i 0
    (i :: List.range' (i + 1) d) (fun j h1 h2 => hbefore j (by omega)) (by omega)
  refine ⟨pre, ?_⟩
  rw [mainRun_valid _ _ _ _ henv, hsplit, hpre,
    pollAttempts_cons_failure responses required (i + d + 1) i _ hfail]
  simp [Nat.add_comm]

/-- If the loop over a tail block of the attempt indices returns success,
some attempt in range saw a response with every required check satisfied. -/
lemma poll_success_witness (responses : Nat → Response) (required : List String)
    (max_retries : Nat) (n : Nat) :
    ∀ a, a + n = max_retries → 1 ≤ n →
      (pollAttempts responses required max_retries (List.range' a n)).outcome =
        Outcome.success →
      ∃ i runs, i < max_retries ∧ responses i = Response.ok runs ∧
        (classify runs required).1 = [] ∧ (classify runs required).2 = [] := by
  induction n with
  | zero =>
    intro a _ hpos _
    exact absurd hpos (by omega)
  | succ k ih =>
    intro a hsum _ hs
    rw [List.range'_succ] at hs
    cases hresp : responses a with
    | failure =>
      rw [pollAttempts_cons_failure _ _ _ _ _ hresp] at hs
      simp at hs
    | ok runs =>
      by_cases hc : (classify runs required).1 = [] ∧ (classify runs required).2 = []
      · exact ⟨a, runs, by omega, hresp, hc.1, hc.2⟩
      · by_cases hlt : a < max_retries - 1
        · rw [pollAttempts_cons_ok_retry _ _ _ _ _ _ hresp hc hlt] at hs
          exact ih (a + 1) (by omega) (by omega) hs
        · rw [pollAttempts_cons_ok_timeout _ _ _ _ _ _ hresp hc hlt] at hs
          simp at hs

/-- A fully valid environment, used to instantiate run-level properties. -/
def envOK : Env :=
  ⟨some "token", some "octo", some "proj", none,
   some "abcdef0123456789abcdef0123456789abcdef01"⟩

/-- An environment whose credential token is absent. -/
def envNoToken : Env := ⟨none, some "octo", some "proj", none, some "abc"⟩

/-- A response body in which one required check completed with a failure
conclusion and the other required checks are absent. -/
def demoFailRuns : List CheckRun := [⟨"Server Tests", "completed", some "failure"⟩]

/-- A response body in which every required check completed successfully. -/
def allGoodRuns : List CheckRun :=
  [⟨"Lint & Type Check", "completed", some "success"⟩,
   ⟨"Server Tests", "completed", some "success"⟩,
   ⟨"Client Tests", "completed", some "success"⟩,
   ⟨"Build Check", "completed", some "success"⟩]

/-- The classification contract for one required name against one response:
absent names land in missing and contribute no pending entry; present but
not completed names land in pending annotated with the lifecycle status;
completed but unsuccessful names land in pending annotated with the
conclusion; completed successful names land in neither list. -/
def c1Claim (runs : List CheckRun) (required : List String) (name : String) : Prop :=
  (checksOf runs name = none →
     name ∈ (classify runs required).2 ∧ pendingEntry (checksOf runs) name = none) ∧
  (∀ check : CheckRun, checksOf runs name = some check → check.status ≠ "completed" →
     (name ++ " (" ++ check.status ++ ")") ∈ (classify runs required).1 ∧
     name ∉ (classify runs required).2) ∧
  (∀ check : CheckRun, checksOf runs name = some check → check.status = "completed" →
     check.conclusion ≠ some "success" →
     (name ++ " (" ++ conclStr check.conclusion ++ ")") ∈ (classify runs required).1 ∧
     name ∉ (classify runs required).2) ∧
  (∀ check : CheckRun, checksOf runs name = some check → check.status = "completed" →
     check.conclusion = some "success" →
     name ∉ (classify runs required).2 ∧ pendingEntry (checksOf runs) name = none)

/-- C1: classification of each required name against one response is
exhaustive and case-correct: absent names are missing (never pending),
present non-completed names are pending with their lifecycle state,
completed non-successful names are pending with their conclusion, and
completed successful names appear in neither pending nor missing. -/
theorem claim_c1 (runs : List CheckRun) (required : List String) (name : String)
    (hmem : name ∈ required) : c1Claim runs required name := by
  refine ⟨?_, ?_, ?_, ?_⟩
  · intro h
    have hcn : classifyName (checksOf runs) name = Classification.missing := by
      simp [classifyName, classifyNameR, h]
    exact ⟨(mem_missing_iff runs required name hmem).mpr hcn,
      pendingEntry_of_missing _ _ hcn⟩
  · intro check hch hst
    have hcn : classifyName (checksOf runs) name = Classification.pending check.status := by
      simp [classifyName, classifyNameR, hch, hst]
    refine ⟨pending_mem runs required name check.status hmem hcn, fun hmm => ?_⟩
    rw [mem_missing_iff runs required name hmem, hcn] at hmm
    exact absurd hmm (by simp)
  · intro check hch hst hconc
    have hcn : classifyName (checksOf runs) name =
        Classification.pending (conclStr check.conclusion) := by
      simp [classifyName, classifyNameR, hch, hst, hconc]
    refine ⟨pending_mem runs required name (conclStr check.conclusion) hmem hcn,
      fun hmm => ?_⟩
    rw [mem_missing_iff runs required name hmem, hcn] at hmm
    exact absurd hmm (by simp)
  · intro check hch hst hconc
    have hcn : classifyName (checksOf runs) name = Classification.satisfied := by
      simp [classifyName, classifyNameR, hch, hst, hconc]
    refine ⟨fun hmm => ?_, pendingEntry_of_satisfied _ _ hcn⟩
    rw [mem_missing_iff runs required name hmem, hcn] at hmm
    exact absurd hmm (by simp)

/-- Witness for C1 at a concrete response and required name. -/
theorem claim_c1_witness : c1Claim demoFailRuns REQUIRED_CHECKS "Server Tests" :=
  claim_c1 demoFailRuns REQUIRED_CHECKS "Server Tests" (by decide)

/-- The last record with a given name wins in the checks dict: lookup of
that name yields the last record, so classification of the name agrees
with classifying that record alone. -/
def c9Claim (l1 l2 : List CheckRun) (r : CheckRun) : Prop :=
  checksOf (l1 ++ r :: l2) r.name = some r ∧
  classifyName (checksOf (l1 ++ r :: l2)) r.name = classifyNameR (some r)

/-- C9: when several records share a name, only the record appearing last
in the response is used to classify that name; all earlier records with
that name are ignored. -/
theorem claim_c9 (l1 l2 : List CheckRun) (r : CheckRun)
    (h2 : ∀ x ∈ l2, x.name ≠ r.name) : c9Claim l1 l2 r := by
  have h := checksOf_last l1 l2 r h2
  refine ⟨h, ?_⟩
  simp only [classifyName, h]

/-- Witness for C9: a duplicate earlier record is shadowed by the last one. -/
theorem claim_c9_witness :
    c9Claim [⟨"Server Tests", "queued", none⟩] []
      ⟨"Server Tests", "completed", some "success"⟩ :=
  claim_c9 [⟨"Server Tests", "queued", none⟩] []
    ⟨"Server Tests", "completed", some "success"⟩ (by decide)

/-- Classification of a non-completed record never depends on its
conclusion field: the result is pending with the lifecycle status, for
every possible conclusion value including an absent one. -/
def c10Claim (checks : String → Option CheckRun) (name : String) (check : CheckRun) :
    Prop :=
  classifyName checks name = Classification.pending check.status ∧
  ∀ c : Option String,
    classifyName
        (fun n => if n = name then some ⟨check.name, check.status, c⟩ else checks n)
        name
      = Classification.pending check.status

/-- C10: classification never reads the conclusion of a record whose status
is not completed; the result is independent of the conclusion value, so a
record lacking a conclusion cannot cause a lookup error. -/
theorem claim_c10 (checks : String → Option CheckRun) (name : String) (check : CheckRun)
    (h : checks name = some check) (hs : check.status ≠ "completed") :
    c10Claim checks name check := by
  constructor
  · simp [classifyName, classifyNameR, h, hs]
  · intro c
    simp [classifyName, classifyNameR, hs]

/-- Witness for C10 at a concrete in-progress record with null conclusion. -/
theorem claim_c10_witness :
    c10Claim
      (fun n => if n = "Server Tests" then some ⟨"Server Tests", "in_progress", none⟩
                else none)
      "Server Tests" ⟨"Server Tests", "in_progress", none⟩ :=
  claim_c10 _ "Server Tests" ⟨"Server Tests", "in_progress", none⟩ (by decide) (by decide)

/-- A run on a missing configuration input ends as a configuration error
with the diagnostic printed, exit status 1 and zero HTTP requests. -/
def c3Claim (env : Env) (responses : Nat → Response) (required : List String)
    (max_retries : Nat) : Prop :=
  (mainRun env responses required max_retries).outcome = Outcome.configError ∧
  (mainRun env responses required max_retries).requests = 0 ∧
  (mainRun env responses required max_retries).stdout = [missingEnvMsg] ∧
  exitCode (mainRun env responses required max_retries).outcome = 1

/-- C3: if any of the four required configuration inputs is absent
(the token, the owner, the repository name both explicit and derived, or
the commit identifier), the run ends with a configuration error and exit
status 1 before issuing any HTTP request, whatever the transport would
have answered. -/
theorem claim_c3 (env : Env) (responses : Nat → Response) (required : List String)
    (max_retries : Nat)
    (h : env.GITHUB_TOKEN = none ∨ env.GITHUB_REPOSITORY_OWNER = none ∨
         (env.GITHUB_REPOSITORY_NAME = none ∧ env.GITHUB_REPOSITORY = none) ∨
         env.GITHUB_SHA = none) :
    c3Claim env responses required max_retries := by
  have hv : validConfig env = false := by
    rcases h with h | h | ⟨h1, h2⟩ | h
    · simp [validConfig, truthyOpt, h]
    · simp [validConfig, truthyOpt, h]
    · have hrepo : repoOf env = "" := by
        rw [repoOf, h1, h2]
        rfl
      simp [validConfig, truthyStr, hrepo]
    · simp [validConfig, truthyOpt, h]
  unfold c3Claim
  rw [mainRun_invalid env responses required max_retries hv]
  exact ⟨rfl, rfl, rfl, rfl⟩

/-- Witness for C3: absent token, no request issued. -/
theorem claim_c3_witness :
    c3Claim envNoToken (fun _ => Response.ok allGoodRuns) REQUIRED_CHECKS 30 :=
  claim_c3 envNoToken (fun _ => Response.ok allGoodRuns) REQUIRED_CHECKS 30
    (Or.inl rfl)

/-- A first response satisfying every required check makes classification
empty and the run succeed on the first attempt with one request, no sleep
and exit status 0. -/
def c5Claim (env : Env) (responses : Nat → Response) (required : List String)
    (max_retries : Nat) (runs : List CheckRun) : Prop :=
  (classify runs required).1 = [] ∧ (classify runs required).2 = [] ∧
  (mainRun env responses required max_retries).outcome = Outcome.success ∧
  (mainRun env responses required max_retries).requests = 1 ∧
  (mainRun env responses required max_retries).sleeps = 0 ∧
  exitCode (mainRun env responses required max_retries).outcome = 0

/-- C5: if the first response contains every required name completed and
successful, then pending and missing are both empty and the loop returns
success immediately on the first attempt: exactly one request, no sleep. -/
theorem claim_c5 (env : Env) (responses : Nat → Response) (required : List String)
    (max_retries : Nat) (runs : List CheckRun)
    (henv : validConfig env = true) (hpos : 1 ≤ max_retries)
    (h0 : responses 0 = Response.ok runs)
    (hall : ∀ name ∈ required, ∃ check : CheckRun,
       checksOf runs name = some check ∧ check.status = "completed" ∧
       check.conclusion = some "success") :
    c5Claim env responses required max_retries runs := by
  have hsat : ∀ name ∈ required,
      classifyName (checksOf runs) name = Classification.satisfied := by
    intro name hname
    obtain ⟨check, hch, hst, hconc⟩ := hall name hname
    simp [classifyName, classifyNameR, hch, hst, hconc]
  have hp : (classify runs required).1 = [] := by
    rw [classify_eq]
    exact List.filterMap_eq_nil_iff.mpr
      (fun a ha => pendingEntry_of_satisfied _ _ (hsat a ha))
  have hm : (classify runs required).2 = [] := by
    rw [classify_eq]
    refine List.filter_eq_nil_iff.mpr (fun a ha => ?_)
    simp [isMissing_iff, hsat a ha]
  obtain ⟨k, rfl⟩ : ∃ k, max_retries = k + 1 := ⟨max_retries - 1, by omega⟩
  have hrange : List.range (k + 1) = 0 :: List.range' 1 k := by
    rw [List.range_eq_range', List.range'_succ]
  have hloop := pollAttempts_cons_ok_success responses required (k + 1) 0
    (List.range' 1 k) runs h0 (Prod.ext_iff.mpr ⟨hp, hm⟩)
  unfold c5Claim
  rw [mainRun_valid _ _ _ _ henv, hrange, hloop]
  exact ⟨hp, hm, rfl, rfl, rfl, rfl⟩

/-- Witness for C5 at a fully successful first response. -/
theorem claim_c5_witness :
    c5Claim envOK (fun _ => Response.ok allGoodRuns) REQUIRED_CHECKS 30 allGoodRuns :=
  claim_c5 envOK (fun _ => Response.ok allGoodRuns) REQUIRED_CHECKS 30 allGoodRuns
    (by decide) (by decide) rfl
    (by
      intro name hname
      fin_cases hname
      · exact ⟨⟨"Lint & Type Check", "completed", some "success"⟩, by decide⟩
      · exact ⟨⟨"Server Tests", "completed", some "success"⟩, by decide⟩
      · exact ⟨⟨"Client Tests", "completed", some "success"⟩, by decide⟩
      · exact ⟨⟨"Build Check", "completed", some "success"⟩, by decide⟩)

/-- The three derived subsets partition the required names: every required
name is in exactly one of satisfied, pending, missing, and each subset only
holds required names. -/
def c6Claim (runs : List CheckRun) (required : List String) : Prop :=
  (∀ name, name ∈ required ↔
     (name ∈ satisfiedNames runs required ∨ name ∈ pendingNames runs required ∨
      name ∈ (classify runs required).2)) ∧
  (∀ name, ¬(name ∈ satisfiedNames runs required ∧ name ∈ pendingNames runs required)) ∧
  (∀ name, ¬(name ∈ satisfiedNames runs required ∧ name ∈ (classify runs required).2)) ∧
  (∀ name, ¬(name ∈ pendingNames runs required ∧ name ∈ (classify runs required).2))

/-- C6: on every iteration the satisfied, pending and missing subsets form
a partition of the required names: their union is the required set and they
are pairwise disjoint.  All three are computed by pure functions of the
current response alone, so nothing carries over between iterations. -/
theorem claim_c6 (runs : List CheckRun) (required : List String) :
    c6Claim runs required := by
  have hmiss : ∀ name, name ∈ (classify runs required).2 ↔
      name ∈ required ∧ isMissing (checksOf runs) name = true := by
    intro name
    rw [classify_eq]
    simp [List.mem_filter]
  refine ⟨?_, ?_, ?_, ?_⟩
  · intro name
    constructor
    · intro hmem
      cases hcn : classifyName (checksOf runs) name with
      | missing =>
        exact Or.inr (Or.inr ((mem_missing_iff runs required name hmem).mpr hcn))
      | pending note =>
        exact Or.inr (Or.inl (List.mem_filter.mpr ⟨hmem, by simp [isPendingName, hcn]⟩))
      | satisfied =>
        exact Or.inl (List.mem_filter.mpr ⟨hmem, by simp [isSatisfiedName, hcn]⟩)
    · rintro (h | h | h)
      · exact (List.mem_filter.mp h).1
      · exact (List.mem_filter.mp h).1
      · exact ((hmiss name).mp h).1
  · rintro name ⟨h1, h2⟩
    have p1 := (List.mem_filter.mp h1).2
    have p2 := (List.mem_filter.mp h2).2
    cases hcn : classifyName (checksOf runs) name with
    | missing => simp [isSatisfiedName, hcn] at p1
    | pending note => simp [isSatisfiedName, hcn] at p1
    | satisfied => simp [isPendingName, hcn] at p2
  · rintro name ⟨h1, h2⟩
    have p1 := (List.mem_filter.mp h1).2
    have hm := (isMissing_iff _ _).mp ((hmiss name).mp h2).2
    simp [isSatisfiedName, hm] at p1
  · rintro name ⟨h1, h2⟩
    have p1 := (List.mem_filter.mp h1).2
    have hm := (isMissing_iff _ _).mp ((hmiss name).mp h2).2
    simp [isPendingName, hm] at p1

/-- The exit contract: status 0 exactly on the success outcome, which in a
bounded run only arises from an attempt whose response satisfied every
required check; the three error outcomes all map to status 1. -/
def c7Claim (env : Env) (responses : Nat → Response) (required : List String)
    (max_retries : Nat) : Prop :=
  (exitCode (mainRun env responses required max_retries).outcome = 0 ↔
     (mainRun env responses required max_retries).outcome = Outcome.success) ∧
  ((mainRun env responses required max_retries).outcome = Outcome.success →
     ∃ i runs, i < max_retries ∧ responses i = Response.ok runs ∧
       (classify runs required).1 = [] ∧ (classify runs required).2 = []) ∧
  exitCode Outcome.configError = 1 ∧ exitCode Outcome.transportError = 1 ∧
  exitCode Outcome.timeout = 1

/-- C7: the process exits with status 0 exactly when the run succeeds,
success only arises when some attempt saw every required check satisfied,
and configuration, transport and timeout errors all exit with status 1. -/
theorem claim_c7 (env : Env) (responses : Nat → Response) (required : List String)
    (max_retries : Nat) (hpos : 1 ≤ max_retries) :
    c7Claim env responses required max_retries := by
  refine ⟨exitCode_eq_zero_iff _, ?_, rfl, rfl, rfl⟩
  intro hs
  by_cases hv : validConfig env = true
  · rw [mainRun_valid _ _ _ _ hv] at hs
    rw [List.range_eq_range'] at hs
    exact poll_success_witness responses required max_retries max_retries 0
      (by omega) hpos hs
  · rw [mainRun_invalid _ _ _ _ (by simpa using hv)] at hs
    exact absurd hs (by simp)

/-- Witness for C7 at a successful concrete run. -/
theorem claim_c7_witness :
    c7Claim envOK (fun _ => Response.ok allGoodRuns) REQUIRED_CHECKS 30 :=
  claim_c7 envOK (fun _ => Response.ok allGoodRuns) REQUIRED_CHECKS 30 (by decide)

/-- A run whose every attempt leaves some required check unsatisfied ends
in timeout with exit status 1 after exactly max_retries requests, reporting
the final combined pending-then-missing list, in which a check completed
with a failure conclusion appears as its name followed by the failure
marker. -/
def c2Claim (env : Env) (responses : Nat → Response) (required : List String)
    (max_retries : Nat) (lastRuns : List CheckRun) : Prop :=
  (mainRun env responses required max_retries).outcome = Outcome.timeout ∧
  exitCode (mainRun env responses required max_retries).outcome = 1 ∧
  (mainRun env responses required max_retries).requests = max_retries ∧
  (mainRun env responses required max_retries).stdout.getLast? =
    some ("  Still missing or failed: " ++
      String.intercalate ", "
        ((classify lastRuns required).1 ++ (classify lastRuns required).2)) ∧
  (∀ name ∈ required, ∀ check : CheckRun, checksOf lastRuns name = some check →
     check.status = "completed" → check.conclusion = some "failure" →
     (name ++ " (failure)") ∈ (classify lastRuns required).1)

/-- C2: if every polling attempt up to max_retries leaves some required
check non-satisfied, the run ends in timeout (exit status 1) after exactly
max_retries requests, reporting the final combined pending-then-missing
list, with a completed-failure check reported with the failure marker;
it never ends as a silent success. -/
theorem claim_c2 (env : Env) (responses : Nat → Response) (required : List String)
    (max_retries : Nat) (lastRuns : List CheckRun)
    (henv : validConfig env = true) (hpos : 1 ≤ max_retries)
    (hnt : ∀ j, j < max_retries → nonterminalAt responses required j)
    (hlast : responses (max_retries - 1) = Response.ok lastRuns) :
    c2Claim env responses required max_retries lastRuns := by
  obtain ⟨pre, hrun⟩ :=
    mainRun_timeout env responses required max_retries lastRuns henv hpos hnt hlast
  unfold c2Claim
  rw [hrun]
  refine ⟨rfl, rfl, rfl, ?_, ?_⟩
  · rw [List.getLast?_append_of_ne_nil _ (by simp [timeoutLines])]
    rfl
  · intro name hname check hch hst hconc
    have hcn : classifyName (checksOf lastRuns) name =
        Classification.pending "failure" := by
      simp [classifyName, classifyNameR, hch, hst, hconc, conclStr]
    have hmem := pending_mem lastRuns required name "failure" hname hcn
    have heq : name ++ " (" ++ "failure" ++ ")" = name ++ " (failure)" := by
      rw [String.append_assoc, String.append_assoc]
      congr 1
    rwa [heq] at hmem

/-- Witness for C2: with max_retries 2 and every response reporting one
required check completed with failure, the run times out after 2 requests. -/
theorem claim_c2_witness :
    c2Claim envOK (fun _ => Response.ok demoFailRuns) REQUIRED_CHECKS 2 demoFailRuns :=
  claim_c2 envOK (fun _ => Response.ok demoFailRuns) REQUIRED_CHECKS 2 demoFailRuns
    (by decide) (by decide)
    (fun j hj => ⟨demoFailRuns, rfl, by decide⟩) rfl

/-- A transport failure on an attempt aborts the whole run at once as an
uncaught transport error: exit status 1, exactly the requests made so far,
no further retry, the traceback on stderr, and no pending or missing
classification of that attempt. -/
def c4Claim (env : Env) (responses : Nat → Response) (required : List String)
    (max_retries i : Nat) : Prop :=
  (mainRun env responses required max_retries).outcome = Outcome.transportError ∧
  (mainRun env responses required max_retries).requests = i + 1 ∧
  (mainRun env responses required max_retries).sleeps = i ∧
  (mainRun env responses required max_retries).stderr = [tracebackHead] ∧
  exitCode (mainRun env responses required max_retries).outcome = 1

/-- C4: if the request of attempt i cannot be completed or returns a
non-success status, the operation aborts immediately as a transport error:
exactly i + 1 requests are ever issued (no retry), and the failure is
surfaced as the uncaught exception rather than any classification. -/
theorem claim_c4 (env : Env) (responses : Nat → Response) (required : List String)
    (max_retries i : Nat)
    (henv : validConfig env = true) (hi : i < max_retries)
    (hbefore : ∀ j, j < i → nonterminalAt responses required j)
    (hfail : responses i = Response.failure) :
    c4Claim env responses required max_retries i := by
  obtain ⟨pre, hrun⟩ :=
    mainRun_transport env responses required max_retries i henv hi hbefore hfail
  unfold c4Claim
  rw [hrun]
  exact ⟨rfl, rfl, rfl, rfl, rfl⟩

/-- Witness for C4: a transport failure on the very first attempt. -/
theorem claim_c4_witness :
    c4Claim envOK (fun _ => Response.failure) REQUIRED_CHECKS 30 0 :=
  claim_c4 envOK (fun _ => Response.failure) REQUIRED_CHECKS 30 0
    (by decide) (by decide) (fun j hj => absurd hj (Nat.not_lt_zero j)) rfl

/-- C8 counterexample: a run that ends as a transport error writes no
diagnostic line for it to stdout: stdout holds exactly the two header
lines printed before the request, while the diagnostic (the interpreter
traceback) appears on stderr.  This refutes the claim that each of the
three error kinds produces its diagnostic line on the standard output
channel. -/
theorem claim_c8_counterexample :
    (mainRun envOK (fun _ => Response.failure) REQUIRED_CHECKS 30).outcome =
      Outcome.transportError ∧
    (mainRun envOK (fun _ => Response.failure) REQUIRED_CHECKS 30).stdout =
      headerLines envOK REQUIRED_CHECKS ∧
    (mainRun envOK (fun _ => Response.failure) REQUIRED_CHECKS 30).stderr =
      [tracebackHead] := by
  have hrange : List.range 30 = 0 :: List.range' 1 29 := by
    rw [List.range_eq_range', List.range'_succ]
  have h1 := pollAttempts_cons_failure (fun _ => Response.failure) REQUIRED_CHECKS
    30 0 (List.range' 1 29) rfl
  rw [mainRun_valid _ _ _ _ (by decide), hrange, h1]
  exact ⟨rfl, by simp, rfl⟩

/-- The amended propagation policy: none of the three error kinds is
recovered internally and each ends the process with status 1;
configuration and timeout errors print their distinct diagnostic lines on
stdout, while a transport error surfaces as the interpreter traceback on
stderr instead of a stdout line. -/
def c8AmendedClaim (envA : Env) (respA : Nat → Response) (reqA : List String)
    (mrA : Nat) (envB : Env) (respB : Nat → Response) (reqB : List String)
    (mrB : Nat) (envC : Env) (respC : Nat → Response)
    (reqC : List String) (mrC : Nat) : Prop :=
  (missingEnvMsg ∈ (mainRun envA respA reqA mrA).stdout ∧
   (mainRun envA respA reqA mrA).outcome = Outcome.configError ∧
   exitCode (mainRun envA respA reqA mrA).outcome = 1) ∧
  (timeoutMsg ∈ (mainRun envB respB reqB mrB).stdout ∧
   (mainRun envB respB reqB mrB).outcome = Outcome.timeout ∧
   exitCode (mainRun envB respB reqB mrB).outcome = 1) ∧
  ((mainRun envC respC reqC mrC).stderr = [tracebackHead] ∧
   (mainRun envC respC reqC mrC).outcome = Outcome.transportError ∧
   exitCode (mainRun envC respC reqC mrC).outcome = 1) ∧
  (missingEnvMsg ≠ timeoutMsg ∧ missingEnvMsg ≠ tracebackHead ∧
   timeoutMsg ≠ tracebackHead)

/-- C8 amended: in a configuration-error run and a timeout run the distinct
diagnostic line lands on stdout before termination; in a transport-error
run the diagnostic is the traceback on stderr; in all three the error is
terminal with exit status 1, never recovered internally. -/
theorem claim_c8_amended (envA : Env) (respA : Nat → Response) (reqA : List String)
    (mrA : Nat) (envB : Env) (respB : Nat → Response) (reqB : List String)
    (mrB : Nat) (lastRuns : List CheckRun) (envC : Env) (respC : Nat → Response)
    (reqC : List String) (mrC iC : Nat)
    (hA : validConfig envA = false)
    (hBenv : validConfig envB = true) (hBpos : 1 ≤ mrB)
    (hBnt : ∀ j, j < mrB → nonterminalAt respB reqB j)
    (hBlast : respB (mrB - 1) = Response.ok lastRuns)
    (hCenv : validConfig envC = true) (hCi : iC < mrC)
    (hCbefore : ∀ j, j < iC → nonterminalAt respC reqC j)
    (hCfail : respC iC = Response.failure) :
    c8AmendedClaim envA respA reqA mrA envB respB reqB mrB
      envC respC reqC mrC := by
  obtain ⟨preB, hB⟩ :=
    mainRun_timeout envB respB reqB mrB lastRuns hBenv hBpos hBnt hBlast
  obtain ⟨preC, hC⟩ :=
    mainRun_transport envC respC reqC mrC iC hCenv hCi hCbefore hCfail
  refine ⟨?_, ?_, ?_, by decide, by decide, by decide⟩
  · rw [mainRun_invalid envA respA reqA mrA hA]
    exact ⟨List.mem_singleton.mpr rfl, rfl, rfl⟩
  · rw [hB]
    refine ⟨?_, rfl, rfl⟩
    exact List.mem_append.mpr (Or.inr (List.mem_cons_self _ _))
  · rw [hC]
    exact ⟨rfl, rfl, rfl⟩

/-- Witness for the amended C8, instantiating the three error scenarios
concretely. -/
theorem claim_c8_amended_witness :
    c8AmendedClaim envNoToken (fun _ => Response.ok allGoodRuns) REQUIRED_CHECKS 30
      envOK (fun _ => Response.ok demoFailRuns) REQUIRED_CHECKS 2
      envOK (fun _ => Response.failure) REQUIRED_CHECKS 30 :=
  claim_c8_amended envNoToken (fun _ => Response.ok allGoodRuns) REQUIRED_CHECKS 30
    envOK (fun _ => Response.ok demoFailRuns) REQUIRED_CHECKS 2 demoFailRuns
    envOK (fun _ => Response.failure) REQUIRED_CHECKS 30 0
    (by decide) (by decide) (by decide)
    (fun j hj => ⟨demoFailRuns, rfl, by decide⟩) rfl
    (by decide) (by decide) (fun j hj => absurd hj (Nat.not_lt_zero j)) rfl
